import Mathlib

/-!
Shallow embedding of the core logic of `ionic-super-tabs`
(`src/core/src/utils.ts`, `src/core/src/super-tabs/super-tabs.component.tsx`
root component, toolbar component, and container component).

JS numbers are modelled as exact rationals (`ℚ`); where division by zero
matters, a separate `JSNum` type models the finite / NaN / ±Infinity
distinction of JS arithmetic.  `Math.round` is modelled by Mathlib's
`round` (`round x = ⌊x + 1/2⌋`), which agrees with JS `Math.round`
(half-up rounding, also for negative arguments).
-/

/- ------------------------------------------------------------------ -/
/- utils.ts                                                            -/
/- ------------------------------------------------------------------ -/

/-- utils.ts line 50:
`const easeInOutCubic = (t) => t < 0.5 ? 4*t*t*t : (t-1)*(2*t-2)*(2*t-2)+1`. -/
def easeInOutCubic (t : ℚ) : ℚ :=
  if t < 1/2 then 4 * t * t * t else (t - 1) * (2 * t - 2) * (2 * t - 2) + 1

/-- Modelled from the spec (for the refinement comparison of claim C8 only):
the specified cubic ease-in-out curve `f(t) = t<0.5 ? 4t³ : 1-(-2t+2)³/2`. -/
def easeInOutCubicSpec (t : ℚ) : ℚ :=
  if t < 1/2 then 4 * t ^ 3 else 1 - (-2 * t + 2) ^ 3 / 2

/-- utils.ts lines 116-118:
`getNormalizedScrollX(el, width, delta) =
   Math.max(0, Math.min(el.scrollWidth - width, el.scrollLeft + delta))`,
with the element's `scrollWidth` and `scrollLeft` passed explicitly. -/
def getNormalizedScrollX (scrollWidth width scrollLeft delta : ℚ) : ℚ :=
  max 0 (min (scrollWidth - width) (scrollLeft + delta))

/- ------------------------------------------------------------------ -/
/- super-tabs.component.tsx (root component)                           -/
/- ------------------------------------------------------------------ -/

/-- Payload of the `tabChange` event (`SuperTabChangeEventDetail`). -/
structure SuperTabChangeEventDetail where
  changed : Bool
  index : ℤ
  deriving DecidableEq, Repr

/-- The root component state relevant to `selectTab`: its committed
`activeTabIndex` property. -/
structure TabsState where
  activeTabIndex : ℤ
  deriving DecidableEq, Repr

/-- super-tabs.component.tsx lines 218-231, `emitTabChangeEvent(newIndex, oldIndex)`:
returns the list of `tabChange` events emitted (empty when the guard
`newIndex < 0` returns early).  `oldIndex = none` models a call without the
optional argument (`typeof oldIndex !== 'number'`), in which case, as for a
negative `oldIndex`, the current `activeTabIndex` is used instead. -/
def emitTabChangeEvent (activeTabIndex : ℤ) (newIndex : ℤ) (oldIndex : Option ℤ) :
    List SuperTabChangeEventDetail :=
  if newIndex < 0 then []
  else
    let old : ℤ :=
      match oldIndex with
      | none => activeTabIndex
      | some o => if o < 0 then activeTabIndex else o
    [⟨decide (newIndex ≠ old), newIndex⟩]

/-- super-tabs.component.tsx lines 96-116, `selectTab(index, animate, emit)`:
saves `lastIndex = this.activeTabIndex`, moves container and toolbar (no
effect on the root state; the container is told to update with `emit=false`,
so no event listener fires back into the root), then if `emit` calls
`emitTabChangeEvent(index, lastIndex)`, and finally assigns
`this.activeTabIndex = lastIndex`.  Returns the new root state and the
emitted `tabChange` events. -/
def selectTab (s : TabsState) (index : ℤ) (animate emit : Bool) :
    TabsState × List SuperTabChangeEventDetail :=
  let _ := animate
  let lastIndex := s.activeTabIndex
  let events := if emit then emitTabChangeEvent s.activeTabIndex index (some lastIndex) else []
  (⟨lastIndex⟩, events)

/-- super-tabs.component.tsx line 18: `const maxInitRetries: number = 1e3`. -/
def maxInitRetries : ℕ := 1000

/-- Outcome of one `initComponent` call: either it scheduled another retry
(recording the new `initAttempts` counter), or it ran the initialization
tail (`propagateConfig`, `setupEventListeners`, `initPromiseResolve`),
recording the final counter and whether the give-up diagnostic was logged. -/
inductive InitStep where
  | retry (attempts : ℕ)
  | done (attempts : ℕ) (loggedGiveUp : Bool)
  deriving DecidableEq, Repr

/-- super-tabs.component.tsx lines 162-188, `initComponent()`:
if the container is absent, increment `initAttempts`; while the counter is
still `≤ maxInitRetries` schedule another frame and return, otherwise log a
diagnostic and fall through to the initialization tail. -/
def initComponent (containerPresent : Bool) (initAttempts : ℕ) : InitStep :=
  if !containerPresent then
    if initAttempts + 1 ≤ maxInitRetries then .retry (initAttempts + 1)
    else .done (initAttempts + 1) true
  else .done initAttempts false

/-- Fuelled driver of the retry loop when the container never materializes:
returns the terminal `(attempts, loggedGiveUp)` pair, or `none` if the fuel
ran out before the loop stopped rescheduling. -/
def initRun : ℕ → ℕ → Option (ℕ × Bool)
  | 0, _ => none
  | fuel + 1, attempts =>
    match initComponent false attempts with
    | .retry a => initRun fuel a
    | .done a logged => some (a, logged)

/- ------------------------------------------------------------------ -/
/- super-tabs-container.component.tsx                                  -/
/- ------------------------------------------------------------------ -/

/-- Measured geometry of the container surface: `this.width`,
`this.scrollWidth` (set to `width * tabs.length` in `indexTabs`) and the
element's current `scrollLeft`. -/
structure ContainerGeom where
  width : ℚ
  scrollWidth : ℚ
  scrollLeft : ℚ
  deriving DecidableEq, Repr

/-- super-tabs-container.component.tsx lines 714-717, `positionToIndex(scrollX)`:
`scrollX / tabWidth` where `tabWidth = this.width` (exact-arithmetic model,
meaningful for nonzero width; the zero-width behaviour is modelled by
`positionToIndexJS`). -/
def positionToIndex (width scrollX : ℚ) : ℚ :=
  scrollX / width

/-- super-tabs-container.component.tsx lines 719-721, `indexToPosition(tabIndex)`:
`Math.round(tabIndex * this.width * 10000) / 10000`. -/
def indexToPosition (width tabIndex : ℚ) : ℚ :=
  ((round (tabIndex * width * 10000) : ℤ) : ℚ) / 10000

/-- super-tabs-container.component.tsx lines 709-712, `calcSelectedTab()`:
`positionToIndex(Math.max(0, Math.min(this.scrollWidth - this.width, this.el.scrollLeft)))`. -/
def calcSelectedTab (g : ContainerGeom) : ℚ :=
  positionToIndex g.width (max 0 (min (g.scrollWidth - g.width) g.scrollLeft))

/-- super-tabs-container.component.tsx lines 723-726, `normalizeSelectedTab(index)`:
`Math.round(Math.max(0, Math.min(this.scrollWidth - this.width, this.indexToPosition(index))) / this.width)`. -/
def normalizeSelectedTab (g : ContainerGeom) (index : ℚ) : ℤ :=
  round (max 0 (min (g.scrollWidth - g.width) (indexToPosition g.width index)) / g.width)

/-- super-tabs-container.component.tsx lines 594-620, `onTouchEnd`:
the committed tab index passed to `updateActiveTabIndex` for a drag that is
being committed (`swipeEnabled` and `isDragging` hold).  `deltaTime` is
`getTs() - this.initialTimestamp`; `active` is `this._activeTabIndex`
(`none` models `undefined`, for which the strict equality with
`expectedTabIndex` is false). -/
def onTouchEndCommit (shortSwipeDuration deltaTime : ℚ) (g : ContainerGeom)
    (active : Option ℤ) (initialX coordsX : ℚ) : ℤ :=
  let shortSwipe := 0 < shortSwipeDuration ∧ deltaTime ≤ shortSwipeDuration
  let shortSwipeDelta := coordsX - initialX
  let selectedTabIndex := calcSelectedTab g
  let expectedTabIndex := round selectedTabIndex
  let shifted :=
    if shortSwipe ∧ some expectedTabIndex = active then
      selectedTabIndex + (if 0 < shortSwipeDelta then -1 else 1)
    else selectedTabIndex
  normalizeSelectedTab g shifted

/-- A JS number split into finite and non-finite values, to model
division by zero (`x / 0` is `NaN` for `x = 0` and `±Infinity` otherwise). -/
inductive JSNum where
  | nan : JSNum
  | posInf : JSNum
  | negInf : JSNum
  | fin : ℚ → JSNum
  deriving DecidableEq, Repr

/-- Whether a `JSNum` is a finite number (neither `NaN` nor `±Infinity`). -/
def JSNum.isFinite : JSNum → Bool
  | fin _ => true
  | _ => false

/-- JS division of two finite numbers: `NaN`/`±Infinity` when the divisor
is zero, the exact quotient otherwise. -/
def jsDiv (a b : ℚ) : JSNum :=
  if b = 0 then (if a = 0 then .nan else if 0 < a then .posInf else .negInf)
  else .fin (a / b)

/-- `positionToIndex` with JS division semantics: the body
`scrollX / tabWidth` is an unguarded division. -/
def positionToIndexJS (width scrollX : ℚ) : JSNum :=
  jsDiv scrollX width

/-- `calcSelectedTab` with JS division semantics: the clamp is ordinary
finite arithmetic, the final division is JS division. -/
def calcSelectedTabJS (width scrollWidth scrollLeft : ℚ) : JSNum :=
  positionToIndexJS width (max 0 (min (scrollWidth - width) scrollLeft))

/-- Per-tab liveness flags (`loaded` / `visible` properties of a
`super-tab` element). -/
structure TabState where
  loaded : Bool
  visible : Bool
  deriving DecidableEq, Repr

/-- The `for (const tab of tabs)` loop of `lazyLoadTabs` (lines 697-705):
for the tab at running index `idx`, `visible := min ≤ idx ∧ idx ≤ max` and
`loaded := visible || (unloadWhenInvisible ? false : loaded)`. -/
def lazyLoadLoop (unload : Bool) (minI maxI : ℤ) : ℤ → List TabState → List TabState
  | _, [] => []
  | idx, t :: ts =>
    let visible := decide (minI ≤ idx ∧ idx ≤ maxI)
    ⟨visible || (if unload then false else t.loaded), visible⟩ ::
      lazyLoadLoop unload minI maxI (idx + 1) ts

/-- super-tabs-container.component.tsx lines 672-707, `lazyLoadTabs()`, after
the `_activeTabIndex`/`config` guards: with `lazyLoad` disabled every tab is
set `{loaded: true, visible: true}`; otherwise the window
`[activeTab - 1, activeTab + 1]` is applied by the indexed loop. -/
def lazyLoadTabs (lazyLoad unload : Bool) (activeTab : ℤ) (tabs : List TabState) :
    List TabState :=
  if !lazyLoad then tabs.map (fun _ => ⟨true, true⟩)
  else lazyLoadLoop unload (activeTab - 1) (activeTab + 1) 0 tabs

/-- super-tabs-container.component.tsx lines 493-500,
`updateSelectedTabIndex(index)`: early-returns when
`index === this._selectedTabIndex` (state `none` models the initial
`undefined`), otherwise stores the index and emits it once.  Returns the new
`_selectedTabIndex` and the list of `selectedTabIndexChange` emissions. -/
def updateSelectedTabIndex (st : Option ℚ) (index : ℚ) : Option ℚ × List ℚ :=
  if some index = st then (st, [])
  else (some index, [index])

/-- Runs `updateSelectedTabIndex` over a sequence of incoming indices,
collecting every emitted `selectedTabIndexChange` value in order. -/
def runSelectedUpdates : Option ℚ → List ℚ → List ℚ
  | _, [] => []
  | st, i :: is =>
    let r := updateSelectedTabIndex st i
    r.2 ++ runSelectedUpdates r.1 is

/- ------------------------------------------------------------------ -/
/- Helper lemmas                                                       -/
/- ------------------------------------------------------------------ -/

/-- Driving `initRun` from any attempt count within the bound terminates in
the give-up state once the fuel covers the remaining retries. -/
lemma initRun_gives_up (fuel : ℕ) : ∀ attempts : ℕ,
    attempts ≤ maxInitRetries → attempts + fuel = maxInitRetries + 1 →
    initRun fuel attempts = some (maxInitRetries + 1, true) := by
  induction fuel with
  | zero =>
    intro a ha hsum
    exfalso
    simp [maxInitRetries] at ha hsum
    omega
  | succ n ih =>
    intro a ha hsum
    unfold initRun initComponent
    simp only [Bool.not_false, if_true]
    by_cases h : a + 1 ≤ maxInitRetries
    · rw [if_pos h]
      exact ih (a + 1) h (by omega)
    · rw [if_neg h]
      have ha' : a = maxInitRetries := by omega
      subst ha'
      rfl

/-- The `selectedTabIndexChange` trace never repeats a value in adjacent
positions, and its first emission differs from the stored index. -/
lemma runSelectedUpdates_chain : ∀ (inputs : List ℚ) (st : Option ℚ),
    List.Chain' (fun a b => a ≠ b) (runSelectedUpdates st inputs) ∧
      (∀ v x, st = some v → (runSelectedUpdates st inputs).head? = some x → x ≠ v) := by
  intro inputs
  induction inputs with
  | nil =>
    intro st
    refine ⟨List.chain'_nil, ?_⟩
    intro v x _ hx
    simp [runSelectedUpdates] at hx
  | cons i is ih =>
    intro st
    by_cases h : some i = st
    · have hrw : runSelectedUpdates st (i :: is) = runSelectedUpdates st is := by
        simp [runSelectedUpdates, updateSelectedTabIndex, h]
      rw [hrw]
      exact ⟨(ih st).1, (ih st).2⟩
    · have hrw : runSelectedUpdates st (i :: is) = i :: runSelectedUpdates (some i) is := by
        simp [runSelectedUpdates, updateSelectedTabIndex, h]
      rw [hrw]
      constructor
      · rw [List.chain'_cons']
        refine ⟨?_, (ih (some i)).1⟩
        intro y hy
        have hy' : (runSelectedUpdates (some i) is).head? = some y := by simpa using hy
        exact fun he => (ih (some i)).2 i y rfl hy' he.symm
      · intro v x hst hx
        simp only [List.head?_cons, Option.some.injEq] at hx
        subst hx
        intro he
        exact h (by rw [hst, he])

/-- Elementwise description of the `lazyLoadTabs` indexed loop. -/
lemma lazyLoadLoop_getElem (unload : Bool) (mn mx : ℤ) :
    ∀ (l : List TabState) (s : ℤ) (i : ℕ),
      (lazyLoadLoop unload mn mx s l)[i]? = l[i]?.map (fun t =>
        ⟨decide (mn ≤ s + (i : ℤ) ∧ s + (i : ℤ) ≤ mx) || (if unload then false else t.loaded),
          decide (mn ≤ s + (i : ℤ) ∧ s + (i : ℤ) ≤ mx)⟩) := by
  intro l
  induction l with
  | nil =>
    intro s i
    simp [lazyLoadLoop]
  | cons t ts ih =>
    intro s i
    cases i with
    | zero =>
      simp [lazyLoadLoop]
    | succ n =>
      simp only [lazyLoadLoop, List.getElem?_cons_succ]
      rw [ih (s + 1) n]
      have hcast : s + 1 + (n : ℤ) = s + ((n + 1 : ℕ) : ℤ) := by push_cast; ring
      rw [hcast]

/-- With `scrollWidth = tabCount * width` and a positive width, the clamped
fractional index `calcSelectedTab` lies in `[0, tabCount - 1]`. -/
lemma calcSelectedTab_bounds (tc : ℤ) (w sl : ℚ) (hw : 0 < w) (htc : 1 ≤ tc) :
    0 ≤ calcSelectedTab ⟨w, (tc : ℚ) * w, sl⟩ ∧
      calcSelectedTab ⟨w, (tc : ℚ) * w, sl⟩ ≤ (tc : ℚ) - 1 := by
  have htc' : (1 : ℚ) ≤ (tc : ℚ) := by exact_mod_cast htc
  unfold calcSelectedTab positionToIndex
  constructor
  · exact div_nonneg (le_max_left 0 _) hw.le
  · rw [div_le_iff₀ hw]
    apply max_le
    · nlinarith
    · calc min ((tc : ℚ) * w - w) sl ≤ (tc : ℚ) * w - w := min_le_left _ _
        _ = ((tc : ℚ) - 1) * w := by ring

/-- When its argument times `width * 10000` is an integer, the `1e-4`
quantization of `indexToPosition` is exact. -/
lemma indexToPosition_exact (w x : ℚ) (m : ℤ) (hm : x * w * 10000 = (m : ℚ)) :
    indexToPosition w x = x * w := by
  unfold indexToPosition
  rw [hm, round_intCast]
  linarith

/-- Rounding after clamping a unit shift of `f ∈ [0, tc - 1]` agrees with
clamping the shifted `round f`. -/
lemma round_clamp_shift (tc : ℤ) (f : ℚ) (σ : ℤ) (hσ : σ = 1 ∨ σ = -1)
    (hf0 : 0 ≤ f) (hf1 : f ≤ (tc : ℚ) - 1) (htc : 1 ≤ tc) :
    round (max 0 (min ((tc : ℚ) - 1) (f + (σ : ℤ)))) = max 0 (min (tc - 1) (round f + σ)) := by
  have htc' : (1 : ℚ) ≤ (tc : ℚ) := by exact_mod_cast htc
  have hR0 : 0 ≤ round f := by
    rw [round_eq]
    exact Int.le_floor.mpr (by push_cast; linarith)
  have hRt : round f ≤ tc - 1 := by
    rw [round_eq]
    have h := Int.floor_lt.mpr (show f + 1/2 < ((tc : ℤ) : ℚ) by linarith)
    omega
  rcases hσ with h1 | h1
  · -- shift by +1
    subst h1
    rw [show ((1 : ℤ) : ℚ) = 1 from by norm_num]
    by_cases hc : f + 1 ≤ (tc : ℚ) - 1
    · rw [min_eq_right hc, max_eq_right (by linarith : (0:ℚ) ≤ f + 1)]
      have hlhs : round (f + 1) = round f + 1 := by
        rw [show f + 1 = f + ((1 : ℤ) : ℚ) from by norm_num]
        exact round_add_int f 1
      rw [hlhs]
      have h2 : round f + 1 ≤ tc - 1 := by
        rw [round_eq]
        have h := Int.floor_lt.mpr (show f + 1/2 < ((tc - 1 : ℤ) : ℚ) by push_cast; linarith)
        omega
      rw [min_eq_right h2, max_eq_right (by omega : (0:ℤ) ≤ round f + 1)]
    · push_neg at hc
      rw [min_eq_left hc.le, max_eq_right (by linarith : (0:ℚ) ≤ (tc : ℚ) - 1)]
      rw [show ((tc : ℚ) - 1) = ((tc - 1 : ℤ) : ℚ) by push_cast; ring, round_intCast]
      have h2 : tc - 1 ≤ round f + 1 := by
        rw [round_eq]
        have h := Int.le_floor.mpr (show ((tc - 2 : ℤ) : ℚ) ≤ f + 1/2 by push_cast; linarith)
        omega
      rw [min_eq_left h2, max_eq_right (by omega : (0:ℤ) ≤ tc - 1)]
  · -- shift by -1
    subst h1
    rw [show ((-1 : ℤ) : ℚ) = -1 from by norm_num]
    by_cases hc : (1 : ℚ) ≤ f
    · rw [min_eq_right (by linarith : f + -1 ≤ (tc : ℚ) - 1),
        max_eq_right (by linarith : (0:ℚ) ≤ f + -1)]
      have hlhs : round (f + -1) = round f - 1 := by
        rw [show f + -1 = f - ((1 : ℤ) : ℚ) by push_cast; ring]
        exact round_sub_int f 1
      rw [hlhs]
      have h2 : 1 ≤ round f := by
        rw [round_eq]
        exact Int.le_floor.mpr (by push_cast; linarith)
      rw [min_eq_right (by omega : round f + -1 ≤ tc - 1),
        max_eq_right (by omega : (0:ℤ) ≤ round f + -1)]
      omega
    · push_neg at hc
      rw [min_eq_right (by linarith : f + -1 ≤ (tc : ℚ) - 1),
        max_eq_left (by linarith : f + -1 ≤ (0:ℚ))]
      rw [round_zero]
      have h2 : round f ≤ 1 := by
        rw [round_eq]
        have h := Int.floor_lt.mpr (show f + 1/2 < ((2 : ℤ) : ℚ) by push_cast; linarith)
        omega
      rw [min_eq_right (by omega : round f + -1 ≤ tc - 1),
        max_eq_left (by omega : round f + -1 ≤ (0:ℤ))]

/-- Core of the short-swipe commit: shifting the fractional index by `σ = ±1`
and normalizing equals clamping `round f + σ`, provided the `1e-4`
quantization is exact on the shifted position. -/
lemma commit_shift_eq (tc : ℤ) (w sl : ℚ) (a n k σ : ℤ) (hσ : σ = 1 ∨ σ = -1)
    (hw : 0 < w) (htc : 1 ≤ tc) (hn : w * 10000 = (n : ℚ))
    (hk : calcSelectedTab ⟨w, (tc : ℚ) * w, sl⟩ * w * 10000 = (k : ℚ))
    (ha : round (calcSelectedTab ⟨w, (tc : ℚ) * w, sl⟩) = a) :
    normalizeSelectedTab ⟨w, (tc : ℚ) * w, sl⟩ (calcSelectedTab ⟨w, (tc : ℚ) * w, sl⟩ + (σ : ℚ))
      = max 0 (min (tc - 1) (a + σ)) := by
  obtain ⟨hf0, hf1⟩ := calcSelectedTab_bounds tc w sl hw htc
  set f := calcSelectedTab ⟨w, (tc : ℚ) * w, sl⟩ with hf
  have hip : indexToPosition w (f + (σ : ℚ)) = (f + (σ : ℚ)) * w := by
    apply indexToPosition_exact w _ (k + σ * n)
    push_cast
    calc (f + (σ : ℚ)) * w * 10000 = f * w * 10000 + (σ : ℚ) * (w * 10000) := by ring
      _ = (k : ℚ) + (σ : ℚ) * (n : ℚ) := by rw [hk, hn]
  show round (max 0 (min ((tc : ℚ) * w - w) (indexToPosition w (f + (σ : ℚ)))) / w)
      = max 0 (min (tc - 1) (a + σ))
  rw [hip]
  have hdiv : max 0 (min ((tc : ℚ) * w - w) ((f + (σ : ℚ)) * w)) / w
      = max 0 (min ((tc : ℚ) - 1) (f + (σ : ℚ))) := by
    rw [show ((tc : ℚ) * w - w) = ((tc : ℚ) - 1) * w by ring]
    rw [← max_div_div_right hw.le, ← min_div_div_right hw.le, zero_div,
      mul_div_cancel_right₀ _ hw.ne', mul_div_cancel_right₀ _ hw.ne']
  rw [hdiv, ← ha]
  exact round_clamp_shift tc f σ hσ hf0 hf1 htc

/- ------------------------------------------------------------------ -/
/- Claim theorems                                                      -/
/- ------------------------------------------------------------------ -/

/-- Claim C1 (code bug evaluation): `selectTab(i, animate, emit)` does NOT
commit `activeTabIndex := i`.  The method's final statement writes back the
value saved at entry (`this.activeTabIndex = lastIndex`, a dead store), so
the committed active tab index is unchanged by every call; in particular
with `activeTabIndex = 0`, `selectTab(1, true, true)` leaves it at `0 ≠ 1`,
contradicting the claim that it becomes `i`. -/
theorem selectTab_preserves_activeTabIndex :
    (∀ (s : TabsState) (index : ℤ) (animate emit : Bool),
        (selectTab s index animate emit).1.activeTabIndex = s.activeTabIndex) ∧
      (selectTab ⟨0⟩ 1 true true).1.activeTabIndex = 0 ∧ (0 : ℤ) ≠ 1 :=
  ⟨fun _ _ _ _ => rfl, rfl, by decide⟩

/-- Claim C2: calling `selectTab(i, animate, emit=true)` when `i` is the
current (non-negative) active tab index emits exactly one `tabChange` event
with payload `{index: i, changed: false}`. -/
theorem selectTab_idempotent_emit (s : TabsState) (index : ℤ) (animate : Bool)
    (hnonneg : 0 ≤ index) (hactive : s.activeTabIndex = index) :
    (selectTab s index animate true).2 = [⟨false, index⟩] := by
  simp [selectTab, emitTabChangeEvent, hactive, not_lt.mpr hnonneg]

/-- Witness for C2: with `activeTabIndex = 2`, `selectTab(2, true, true)`
emits exactly `[{changed: false, index: 2}]`. -/
theorem selectTab_idempotent_emit_witness :
    (selectTab ⟨2⟩ 2 true true).2 = [⟨false, 2⟩] :=
  selectTab_idempotent_emit ⟨2⟩ 2 true (by decide) rfl

/-- Counterexample to claim C3 as stated: for the positive tab width
`1/100000` and the in-range index `i = 1` (with `tabCount = 2`), the
round-trip `positionToIndex (indexToPosition i)` returns `0`, which is not
within `1e-4` of `1` — the `1e-4` quantization of `indexToPosition` destroys
the index for widths below `1/2`. -/
theorem positionToIndex_roundtrip_counterexample :
    (0 : ℚ) < 1/100000 ∧ (0 : ℤ) ≤ 1 ∧ (1 : ℤ) ≤ 2 - 1 ∧
      ¬(|positionToIndex (1/100000) (indexToPosition (1/100000) ((1:ℤ) : ℚ)) - ((1:ℤ) : ℚ)|
          ≤ 1/10000) := by
  refine ⟨by norm_num, by decide, by decide, ?_⟩
  simp only [positionToIndex, indexToPosition, round_eq]
  norm_num [Int.floor_eq_iff]

/-- Claim C3 (amended): for every integer `i` with `0 ≤ i ≤ tabCount - 1`
and every measured tab width `w ≥ 1/2`, the round-trip
`positionToIndex (indexToPosition i)` yields `i` again to within `1e-4`. -/
theorem positionToIndex_roundtrip (tabCount i : ℤ) (w : ℚ)
    (hw : 1/2 ≤ w) (_hi0 : 0 ≤ i) (_hi1 : i ≤ tabCount - 1) :
    |positionToIndex w (indexToPosition w ((i : ℤ) : ℚ)) - ((i : ℤ) : ℚ)| ≤ 1/10000 := by
  have hw0 : (0 : ℚ) < w := lt_of_lt_of_le (by norm_num) hw
  unfold positionToIndex indexToPosition
  have hkey : ((round ((i : ℚ) * w * 10000) : ℤ) : ℚ) / 10000 / w - (i : ℚ)
      = (((round ((i : ℚ) * w * 10000) : ℤ) : ℚ) - (i : ℚ) * w * 10000) / (10000 * w) := by
    field_simp
    ring
  rw [hkey, abs_div, abs_of_pos (by positivity : (0:ℚ) < 10000 * w)]
  have h2 : |((round ((i : ℚ) * w * 10000) : ℤ) : ℚ) - (i : ℚ) * w * 10000| ≤ 1/2 := by
    rw [abs_sub_comm]
    exact abs_sub_round _
  calc |((round ((i : ℚ) * w * 10000) : ℤ) : ℚ) - (i : ℚ) * w * 10000| / (10000 * w)
      ≤ (1/2) / (10000 * w) := by gcongr
    _ ≤ 1/10000 := by
        rw [div_le_div_iff₀ (by positivity) (by norm_num)]
        linarith

/-- Witness for amended C3: with tab width `300` and `i = 2` (in range for
`tabCount = 4`), the round-trip error is within `1e-4`. -/
theorem positionToIndex_roundtrip_witness :
    |positionToIndex 300 (indexToPosition 300 (((2:ℤ) : ℤ) : ℚ)) - (((2:ℤ) : ℤ) : ℚ)| ≤ 1/10000 :=
  positionToIndex_roundtrip 4 2 300 (by norm_num) (by decide) (by decide)

/-- Counterexample to claim C4 as stated: with zero measured width the
division is not guarded and no error branch is taken — `positionToIndex`
returns the non-finite `+Infinity` for offset `600`, and `calcSelectedTab`
(whose clamp maps the offset to `0`) returns `NaN`, which then propagates. -/
theorem positionToIndex_zero_width_nan :
    (positionToIndexJS 0 600).isFinite = false ∧ calcSelectedTabJS 0 0 600 = JSNum.nan := by
  constructor
  · rfl
  · simp only [calcSelectedTabJS, positionToIndexJS, jsDiv]
    norm_num

/-- Claim C4 (amended): with zero measured width, `positionToIndex` and
`calcSelectedTab` never produce a finite number — the unguarded division by
the zero `tabWidth` yields `NaN` or `±Infinity`, which propagates to the
callers instead of an explicit failure. -/
theorem positionToIndex_zero_width_propagates (scrollWidth scrollLeft x : ℚ) :
    (positionToIndexJS 0 x).isFinite = false ∧
      (calcSelectedTabJS 0 scrollWidth scrollLeft).isFinite = false := by
  constructor <;>
    · simp only [calcSelectedTabJS, positionToIndexJS, jsDiv, if_pos rfl]
      split_ifs <;> rfl

/-- Claim C5: for every input offset (`scrollLeft + delta`, including
negative and over-max values), with `tabCount ≥ 1`, `width ≥ 0` and
`scrollWidth = tabCount * width`, the normalized scroll offset lies in
`[0, (tabCount - 1) * width]`. -/
theorem getNormalizedScrollX_clamped (tabCount : ℤ) (w scrollLeft delta : ℚ)
    (htc : 1 ≤ tabCount) (hw : 0 ≤ w) :
    0 ≤ getNormalizedScrollX ((tabCount : ℚ) * w) w scrollLeft delta ∧
      getNormalizedScrollX ((tabCount : ℚ) * w) w scrollLeft delta ≤ ((tabCount : ℚ) - 1) * w := by
  have htc' : (1 : ℚ) ≤ (tabCount : ℚ) := by exact_mod_cast htc
  unfold getNormalizedScrollX
  refine ⟨le_max_left 0 _, max_le ?_ ?_⟩
  · nlinarith
  · calc min ((tabCount : ℚ) * w - w) (scrollLeft + delta) ≤ (tabCount : ℚ) * w - w :=
        min_le_left _ _
      _ = ((tabCount : ℚ) - 1) * w := by ring

/-- Witness for C5: `tabCount = 3`, `width = 100`, `scrollLeft = 500`,
`delta = 100` (an over-max offset) stays within `[0, 200]`. -/
theorem getNormalizedScrollX_clamped_witness :
    0 ≤ getNormalizedScrollX (((3:ℤ) : ℚ) * 100) 100 500 100 ∧
      getNormalizedScrollX (((3:ℤ) : ℚ) * 100) 100 500 100 ≤ (((3:ℤ) : ℚ) - 1) * 100 :=
  getNormalizedScrollX_clamped 3 100 500 100 (by norm_num) (by norm_num)

/-- Counterexample to claim C6 as stated: geometry `width = 1`,
`scrollWidth = 4` (four tabs), `scrollLeft = 0.49996`, active tab `0`,
leftward flick (`coords.x - initial.x = -5 < 0`) completing in `150ms ≤ 300ms`.
The rounded release index is `0 = active`, so the claim requires committing
`clamp(0 + 1) = 1`; but the code shifts the fractional index `0.49996` to
`1.49996`, quantizes the position to `1.5`, and `normalizeSelectedTab`
rounds that to `2`. -/
theorem onTouchEnd_short_swipe_counterexample :
    round (calcSelectedTab ⟨1, 4, 49996/100000⟩) = 0 ∧
      onTouchEndCommit 300 150 ⟨1, 4, 49996/100000⟩ (some 0) 10 5 = 2 ∧
      (2 : ℤ) ≠ max 0 (min (4 - 1) (0 + if 0 < (5 : ℚ) - 10 then -1 else 1)) := by
  refine ⟨?_, ?_, ?_⟩
  · simp only [calcSelectedTab, positionToIndex, round_eq]
    norm_num [Int.floor_eq_iff]
  · simp only [onTouchEndCommit, calcSelectedTab, normalizeSelectedTab, indexToPosition,
      positionToIndex, round_eq]
    norm_num [Int.floor_eq_iff]
  · norm_num

/-- Claim C6 (amended): for a committed drag released within
`shortSwipeDuration > 0` whose rounded fractional index equals the pre-drag
active index, the code shifts the FRACTIONAL index by one in the flick
direction (`+1` for leftward motion, `-1` for rightward) and then
normalizes; whenever the `1e-4` position quantization is exact (i.e.
`width * 10⁴` and `frac * width * 10⁴` are integers) the committed index
equals the rounded value shifted by one and clamped to `[0, tabCount - 1]`. -/
theorem onTouchEnd_short_swipe (tc : ℤ) (w sl initialX coordsX deltaTime shortDur : ℚ) (a : ℤ)
    (hshort : 0 < shortDur) (hdt : deltaTime ≤ shortDur)
    (hw : 0 < w) (htc : 1 ≤ tc)
    (hn : ∃ n : ℤ, w * 10000 = (n : ℚ))
    (hk : ∃ k : ℤ, calcSelectedTab ⟨w, (tc : ℚ) * w, sl⟩ * w * 10000 = (k : ℚ))
    (ha : round (calcSelectedTab ⟨w, (tc : ℚ) * w, sl⟩) = a) :
    onTouchEndCommit shortDur deltaTime ⟨w, (tc : ℚ) * w, sl⟩ (some a) initialX coordsX
      = max 0 (min (tc - 1) (a + if 0 < coordsX - initialX then -1 else 1)) := by
  obtain ⟨n, hn⟩ := hn
  obtain ⟨k, hk⟩ := hk
  have hcond : (0 < shortDur ∧ deltaTime ≤ shortDur) ∧
      some (round (calcSelectedTab ⟨w, (tc : ℚ) * w, sl⟩)) = some a := ⟨⟨hshort, hdt⟩, by rw [ha]⟩
  simp only [onTouchEndCommit]
  rw [if_pos hcond]
  by_cases hd : 0 < coordsX - initialX
  · rw [if_pos hd, if_pos hd,
      show (-1 : ℚ) = ((-1 : ℤ) : ℚ) by norm_num]
    exact commit_shift_eq tc w sl a n k (-1) (Or.inr rfl) hw htc hn hk ha
  · rw [if_neg hd, if_neg hd,
      show (1 : ℚ) = ((1 : ℤ) : ℚ) by norm_num]
    exact commit_shift_eq tc w sl a n k 1 (Or.inl rfl) hw htc hn hk ha

/-- Witness for amended C6 (the spec's own scenario): `tabCount = 4`,
`width = 300`, release offset `100` (fractional index `1/3`, rounding to the
active tab `0`), a leftward flick completing in `150ms ≤ 300ms` commits to
`clamp(0 + 1) = 1`. -/
theorem onTouchEnd_short_swipe_witness :
    onTouchEndCommit 300 150 ⟨300, ((4 : ℤ) : ℚ) * 300, 100⟩ (some 0) 10 5
      = max 0 (min ((4 : ℤ) - 1) (0 + if 0 < (5 : ℚ) - 10 then -1 else 1)) :=
  onTouchEnd_short_swipe 4 300 100 10 5 150 300 0 (by norm_num) (by norm_num) (by norm_num)
    (by norm_num) ⟨3000000, by norm_num⟩
    ⟨1000000, by simp only [calcSelectedTab, positionToIndex]; norm_num⟩
    (by simp only [calcSelectedTab, positionToIndex, round_eq]; norm_num [Int.floor_eq_iff])

/-- Claim C7: after `lazyLoadTabs` with `lazyLoad` enabled, tab `i` is
visible iff `active - 1 ≤ i ≤ active + 1`; every visible tab is loaded; a
tab outside the window is unloaded exactly when `unloadWhenInvisible` is
set, and otherwise keeps its previous `loaded` flag; with `lazyLoad`
disabled every tab ends `{loaded: true, visible: true}`. -/
theorem lazyLoadTabs_window (unload : Bool) (a : ℤ) (tabs : List TabState) (i : ℕ)
    (t t' : TabState) (hold : tabs[i]? = some t)
    (hnew : (lazyLoadTabs true unload a tabs)[i]? = some t') :
    ((t'.visible = true) ↔ (a - 1 ≤ (i : ℤ) ∧ (i : ℤ) ≤ a + 1)) ∧
      (t'.visible = true → t'.loaded = true) ∧
      (¬(a - 1 ≤ (i : ℤ) ∧ (i : ℤ) ≤ a + 1) →
        t'.loaded = if unload then false else t.loaded) ∧
      (∀ u : TabState, (lazyLoadTabs false unload a tabs)[i]? = some u →
        u.loaded = true ∧ u.visible = true) := by
  have hmain : (lazyLoadTabs true unload a tabs)[i]?
      = tabs[i]?.map (fun tb =>
          ⟨decide (a - 1 ≤ 0 + (i : ℤ) ∧ 0 + (i : ℤ) ≤ a + 1) ||
              (if unload then false else tb.loaded),
            decide (a - 1 ≤ 0 + (i : ℤ) ∧ 0 + (i : ℤ) ≤ a + 1)⟩) := by
    simp only [lazyLoadTabs, Bool.not_true, Bool.false_eq_true, if_false]
    exact lazyLoadLoop_getElem unload (a - 1) (a + 1) tabs 0 i
  rw [hold] at hmain
  rw [hnew] at hmain
  simp only [Option.map_some', Option.some.injEq, zero_add] at hmain
  subst hmain
  refine ⟨?_, ?_, ?_, ?_⟩
  · simp [decide_eq_true_iff]
  · intro hv
    have hc : decide (a - 1 ≤ (i : ℤ) ∧ (i : ℤ) ≤ a + 1) = true := hv
    show (decide (a - 1 ≤ (i : ℤ) ∧ (i : ℤ) ≤ a + 1) || (if unload then false else t.loaded)) = true
    rw [hc, Bool.true_or]
  · intro hout
    have hc : decide (a - 1 ≤ (i : ℤ) ∧ (i : ℤ) ≤ a + 1) = false := decide_eq_false hout
    show (decide (a - 1 ≤ (i : ℤ) ∧ (i : ℤ) ≤ a + 1) || (if unload then false else t.loaded)) = _
    rw [hc, Bool.false_or]
  · intro u hu
    simp only [lazyLoadTabs, Bool.not_false, if_true, List.getElem?_map, hold,
      Option.map_some', Option.some.injEq] at hu
    subst hu
    exact ⟨rfl, rfl⟩

/-- Witness for C7 (the spec's lazy-window scenario): with six unloaded
tabs, `active = 3` and `unloadWhenInvisible = false`, tab `2` ends up
visible, matching `3 - 1 ≤ 2 ≤ 3 + 1`. -/
theorem lazyLoadTabs_window_witness :
    (((⟨true, true⟩ : TabState).visible = true) ↔
      ((3:ℤ) - 1 ≤ ((2:ℕ) : ℤ) ∧ ((2:ℕ) : ℤ) ≤ 3 + 1)) :=
  (lazyLoadTabs_window false 3
    [⟨false, false⟩, ⟨false, false⟩, ⟨false, false⟩, ⟨false, false⟩, ⟨false, false⟩,
      ⟨false, false⟩]
    2 ⟨false, false⟩ ⟨true, true⟩ (by decide) (by decide)).1

/-- Claim C8: for every `t ∈ [0, 1]`, the implemented easing
`t < 0.5 ? 4t·t·t : (t-1)(2t-2)(2t-2)+1` equals, as exact arithmetic, the
specified curve `t < 0.5 ? 4t³ : 1-(-2t+2)³/2`. -/
theorem easeInOutCubic_matches_spec (t : ℚ) (_h0 : 0 ≤ t) (_h1 : t ≤ 1) :
    easeInOutCubic t = easeInOutCubicSpec t := by
  unfold easeInOutCubic easeInOutCubicSpec
  split_ifs with h
  · ring
  · ring

/-- Witness for C8: the two easing formulas agree at `t = 3/4`. -/
theorem easeInOutCubic_matches_spec_witness :
    easeInOutCubic (3/4) = easeInOutCubicSpec (3/4) :=
  easeInOutCubic_matches_spec (3/4) (by norm_num) (by norm_num)

/-- Claim C9: while the container is absent, `initComponent` re-schedules
itself exactly when the incremented attempt counter is still within
`maxInitRetries = 1000`; at the bound it stops retrying, logs the
diagnostic, and completes initialization; the whole retry loop started at
attempt `0` terminates after `maxInitRetries` reschedules in the logged
give-up state. -/
theorem initComponent_bounded_retries :
    (∀ a : ℕ, initComponent false a = InitStep.retry (a + 1) ↔ a + 1 ≤ maxInitRetries) ∧
      initComponent false maxInitRetries = InitStep.done (maxInitRetries + 1) true ∧
      initRun (maxInitRetries + 1) 0 = some (maxInitRetries + 1, true) := by
  refine ⟨fun a => ?_, ?_, initRun_gives_up _ 0 (by simp [maxInitRetries]) (by omega)⟩
  · constructor
    · intro h
      by_contra hc
      simp [initComponent, hc] at h
    · intro h
      simp [initComponent, h]
  · simp [initComponent, maxInitRetries]

/-- Witness for C9: at attempt count `0` the loop reschedules
(`1 ≤ maxInitRetries`), and the full run from `0` gives up after `1000`
retries with the diagnostic logged. -/
theorem initComponent_bounded_retries_witness :
    initComponent false 0 = InitStep.retry 1 ∧
      initRun (maxInitRetries + 1) 0 = some (maxInitRetries + 1, true) :=
  ⟨(initComponent_bounded_retries.1 0).mpr (by simp [maxInitRetries]),
    initComponent_bounded_retries.2.2⟩

/-- Claim C10: `updateSelectedTabIndex` returns without emitting or mutating
state when the index equals the stored selected index, otherwise stores it
and emits it exactly once; consequently the `selectedTabIndexChange` trace
never contains two adjacent equal values. -/
theorem updateSelectedTabIndex_no_duplicate (st : Option ℚ) (index : ℚ) (inputs : List ℚ) :
    (some index = st → updateSelectedTabIndex st index = (st, [])) ∧
      (some index ≠ st → updateSelectedTabIndex st index = (some index, [index])) ∧
      List.Chain' (fun a b => a ≠ b) (runSelectedUpdates st inputs) := by
  refine ⟨fun h => ?_, fun h => ?_, (runSelectedUpdates_chain inputs st).1⟩
  · simp [updateSelectedTabIndex, h]
  · simp [updateSelectedTabIndex, h]

/-- Witness for C10: re-sending the stored index `1` emits nothing, and the
input sequence `[1, 1, 2]` from the initial `undefined` state produces an
emission trace with no adjacent duplicates. -/
theorem updateSelectedTabIndex_no_duplicate_witness :
    updateSelectedTabIndex (some 1) 1 = (some 1, []) ∧
      List.Chain' (fun a b => a ≠ b) (runSelectedUpdates none [1, 1, 2]) :=
  ⟨(updateSelectedTabIndex_no_duplicate (some 1) 1 []).1 rfl,
   (updateSelectedTabIndex_no_duplicate none 1 [1, 1, 2]).2.2⟩
